import Mathlib

/-!
Verification development for the Pixabay crawl-and-curate pipeline
(`src/crawl.py` and `src/analyze.py`).

The metadata table is embedded as a list of rows.  A pandas cell that may be
missing (NaN) is an `Option`; engagement counters and derived ratios use `ℚ`
(the source values are machine integers and single divisions, which rationals
model exactly), with IEEE special values (`inf`, `-inf`, `NaN`) made explicit
by the `PVal` type where division can produce them.
-/

/-- One row of the raw metadata table (`metadata.csv`), as read by
`analyze.py`.  Every column can be missing. -/
structure Row where
  id : Option ℤ
  content_Type : Option String
  image_Type : Option String
  category : Option String
  colors : Option String
  editor_Choice : Option String
  order : Option String
  tags : Option String
  views : Option ℚ
  likes : Option ℚ
  downloads : Option ℚ
  comments : Option ℚ
  url : Option String
deriving DecidableEq, Repr

/-- The structured counts written to the cleaning log by `clean`
(`analyze.py` lines 62-81): missing-id drops, duplicate drops, and
mis-marked relabels, in log order. -/
structure CleanReport where
  missing_id : ℕ
  duplication : ℕ
  mis_marked : ℕ
deriving DecidableEq, Repr

/-- `needle` occurs as a contiguous run somewhere in `hay`. -/
def listIsInfix (needle : List Char) : List Char → Bool
  | [] => needle.isEmpty
  | c :: cs => needle.isPrefixOf (c :: cs) || listIsInfix needle cs

/-- `needle` occurs as a contiguous substring of `hay`.  Models a pandas
`Series.str.contains` test with a pattern that is an alternation of plain
literals (no metacharacters), which is what `clean` uses. -/
def containsSubstr (needle hay : String) : Bool :=
  listIsInfix needle.data hay.data

/-- `Tags.str.contains("ai generated|ai-generated|ai_generated|aigenerated", na=False)`
(`analyze.py` lines 73-75).  `na=False`: a missing cell never matches.
`str.contains` is case-sensitive by default. -/
def hasAiTag : Option String → Bool
  | none => false
  | some s =>
    containsSubstr "ai generated" s || containsSubstr "ai-generated" s ||
      containsSubstr "ai_generated" s || containsSubstr "aigenerated" s

/-- `Image_Type.str.contains("vector/ai", na=False)` (`analyze.py` line 76). -/
def hasVectorAi : Option String → Bool
  | none => false
  | some s => containsSubstr "vector/ai" s

/-- The mis-marked mask of `clean` (`analyze.py` lines 74-77): the row is
currently labeled `authentic` and its tags or image type carry an AI signal. -/
def misMask (r : Row) : Bool :=
  decide (r.content_Type = some "authentic") &&
    (hasAiTag r.tags || hasVectorAi r.image_Type)

/-- Seen-set pass behind `drop_duplicates`: keep each row whose `id` value
is not among the `id`s already seen. -/
def dropDupByIDAux (seen : List (Option ℤ)) : List Row → List Row
  | [] => []
  | r :: rs =>
    if seen.any fun x => decide (x = r.id) then dropDupByIDAux seen rs
    else r :: dropDupByIDAux (r.id :: seen) rs

/-- `drop_duplicates(subset=["ID"])` with the pandas default `keep="first"`
(`analyze.py` line 68): keep each row whose `id` has not occurred earlier. -/
def dropDupByID (rows : List Row) : List Row :=
  dropDupByIDAux [] rows

/-- Insert into a `≤`-sorted list of rationals, keeping it sorted. -/
def insertSorted (x : ℚ) : List ℚ → List ℚ
  | [] => [x]
  | y :: ys => if x ≤ y then x :: y :: ys else y :: insertSorted x ys

/-- Sort a list of rationals (insertion sort). -/
def sortQ (l : List ℚ) : List ℚ :=
  l.foldr insertSorted []

/-- `Series.median()` with the pandas default `skipna=True`: the median of
the present values — middle element of the sorted values for odd count, the
mean of the two middle elements for even count, and `NaN` (here `none`) for
an empty column. -/
def medianOfPresent (l : List (Option ℚ)) : Option ℚ :=
  let v := sortQ (l.filterMap id)
  let n := v.length
  if n = 0 then none
  else if n % 2 = 1 then some (v.getD (n / 2) 0)
  else some ((v.getD (n / 2 - 1) 0 + v.getD (n / 2) 0) / 2)

/-- The table after the two dropping steps of `clean` (`analyze.py`
lines 62, 68): drop rows with missing `ID`, then drop duplicate `ID`s
keeping the first occurrence. -/
def cleanKept (rows : List Row) : List Row :=
  dropDupByID (rows.filter fun r => r.id.isSome)

/-- Median of the `Views` column of the kept table (`analyze.py` line 93). -/
def medViews (rows : List Row) : Option ℚ :=
  medianOfPresent ((cleanKept rows).map (·.views))

/-- Median of the `Likes` column of the kept table. -/
def medLikes (rows : List Row) : Option ℚ :=
  medianOfPresent ((cleanKept rows).map (·.likes))

/-- Median of the `Downloads` column of the kept table. -/
def medDownloads (rows : List Row) : Option ℚ :=
  medianOfPresent ((cleanKept rows).map (·.downloads))

/-- Median of the `Comments` column of the kept table. -/
def medComments (rows : List Row) : Option ℚ :=
  medianOfPresent ((cleanKept rows).map (·.comments))

/-- The relabel step of `clean` (`analyze.py` lines 78-79): rows matching
the mis-marked mask get `Content_Type := "ai"`. -/
def relabelRow (r : Row) : Row :=
  if misMask r then { r with content_Type := some "ai" } else r

/-- `fillna({col: "Unknown"})` for one categorical cell (`analyze.py`
lines 85-86). -/
def fillUnknownStr : Option String → Option String
  | none => some "Unknown"
  | some s => some s

/-- `fillna({col: median})` for one numeric cell (`analyze.py` lines 92-93);
when the column median is itself `NaN` (empty column) the cell stays missing. -/
def fillNum (med : Option ℚ) : Option ℚ → Option ℚ
  | none => med
  | some v => some v

/-- The per-row value-filling steps of `clean` (`analyze.py` lines 84-93):
categorical cells to `"Unknown"`, tags to `""`, numeric cells to the
column median (the medians are computed over the kept table, whose numeric
columns the earlier steps do not change). -/
def fillRow (mv ml md mc : Option ℚ) (r : Row) : Row :=
  { r with
    content_Type := fillUnknownStr r.content_Type
    image_Type := fillUnknownStr r.image_Type
    category := fillUnknownStr r.category
    colors := fillUnknownStr r.colors
    editor_Choice := fillUnknownStr r.editor_Choice
    order := fillUnknownStr r.order
    tags := (match r.tags with | none => some "" | some s => some s)
    views := fillNum mv r.views
    likes := fillNum ml r.likes
    downloads := fillNum md r.downloads
    comments := fillNum mc r.comments }

/-- Everything `clean` does to one kept row, in source order: relabel, then
fill missing values. -/
def cleanTransform (rows : List Row) (r : Row) : Row :=
  fillRow (medViews rows) (medLikes rows) (medDownloads rows) (medComments rows)
    (relabelRow r)

/-- `clean(metadata, log)` (`analyze.py` lines 47-95): returns the validated
table and the three counts the function writes to the log. -/
def clean (rows : List Row) : List Row × CleanReport :=
  ((cleanKept rows).map (cleanTransform rows),
   { missing_id := rows.length - (rows.filter fun r => r.id.isSome).length
     duplication := (rows.filter fun r => r.id.isSome).length - (cleanKept rows).length
     mis_marked := (cleanKept rows).countP misMask })

/-!
### Feature engineering (`preprocess`, `analyze.py` lines 15-44)

Pandas stores the engineered ratio columns as IEEE floats; since the inputs
are integers and a single exact division is involved, `PVal` captures the
reachable values exactly: a rational, `+inf`, `-inf`, or `NaN`.
-/

/-- A pandas float cell that a single division can produce. -/
inductive PVal where
  | num (q : ℚ)
  | posInf
  | negInf
  | nan
deriving DecidableEq, Repr

/-- `metadata[raw] / metadata["Views"]` for one row (`analyze.py` line 31),
with IEEE float semantics: a missing operand gives `NaN`; division by zero
gives `NaN` for `0/0` and a signed infinity otherwise. -/
def pandasDiv (a b : Option ℚ) : PVal :=
  match a, b with
  | none, _ => .nan
  | _, none => .nan
  | some x, some y =>
    if y = 0 then
      if x = 0 then .nan else if 0 < x then .posInf else .negInf
    else .num (x / y)

/-- `metadata.fillna(0)` applied to a ratio cell (`analyze.py` line 32):
replaces `NaN`, and only `NaN`, by `0`.  Infinities pass through. -/
def fillZero : PVal → PVal
  | .nan => .num 0
  | v => v

/-- The three derived ratio cells of one row. -/
structure RatioRow where
  likes_Per_View : PVal
  downloads_Per_View : PVal
  comments_Per_View : PVal
deriving DecidableEq, Repr

/-- The ratio-engineering step of `preprocess` (`analyze.py` lines 30-32):
each `{Likes,Downloads,Comments}_Per_View` column is `raw / Views`, and the
subsequent frame-wide `fillna(0)` turns the `NaN`s it produced into `0`.
(The later z-score standardization of line 42 rescales these columns and is
not modeled; the one-hot encoding of lines 37-39 touches other columns.) -/
def engineerRatios (r : Row) : RatioRow :=
  { likes_Per_View := fillZero (pandasDiv r.likes r.views)
    downloads_Per_View := fillZero (pandasDiv r.downloads r.views)
    comments_Per_View := fillZero (pandasDiv r.comments r.views) }

/-- `metadata["Content_Type"].map({"authentic": 0, "ai": 1})` (`analyze.py`
line 35): a pandas `map` with a dict sends keys absent from the dict —
including the `"Unknown"` placeholder, and the `0` that the line-32
`fillna(0)` put where `Content_Type` was missing — to `NaN` (`none`). -/
def booleanContentType : Option String → Option ℤ
  | some s => if s = "authentic" then some 0 else if s = "ai" then some 1 else none
  | none => none

/-!
### Crawler (`src/crawl.py`)

The remote API is an oracle `Request → ApiResponse`; a `Hit` is the JSON
record of one search result, with every field optional so that a record
lacking a key can be represented (accessing a missing key in the source
raises `KeyError`).
-/

/-- One HTTP GET against the Pixabay endpoint, as assembled by `make_query`
and `fetch_metadata` (`crawl.py` lines 80-86, 145-159): the per-combination
parameters, the page, the page size, and the keyword query that is appended
for non-authentic content. -/
structure Request where
  content_type : String
  image_type : String
  page : ℕ
  per_page : ℕ
  q : Option String
deriving DecidableEq, Repr

/-- One record of the `hits` array of a successful response.  A field the
upstream record lacks is `none`. -/
structure Hit where
  id : Option ℤ
  type : Option String
  tags : Option String
  views : Option ℤ
  downloads : Option ℤ
  likes : Option ℤ
  comments : Option ℤ
  largeImageURL : Option String
deriving DecidableEq, Repr

/-- What the remote API answers to one request: a 200 with a `hits` array,
or a non-200 with a body. -/
inductive ApiResponse where
  | ok (hits : List Hit)
  | err (body : String)
deriving DecidableEq, Repr

/-- The request actually sent by `make_query` (`crawl.py` lines 80-86):
`content_type == "authentic"` selects the plain endpoint, anything else the
endpoint augmented with `?q=ai_generated`. -/
def sentRequest (req : Request) : Request :=
  if req.content_type = "authentic" then req
  else { req with q := some "ai_generated" }

/-- `make_query(params)` (`crawl.py` lines 69-103): on a 200 return the
`hits` list, on a non-200 print the body and return the empty list. -/
def make_query (api : Request → ApiResponse) (req : Request) : List Hit :=
  match api (sentRequest req) with
  | .ok hits => hits
  | .err _ => []

/-- One row of the accumulated metadata table, in the column order of
`COLUMNS` (`crawl.py` lines 129-143). -/
structure MRow where
  id : ℤ
  content_Type : String
  image_Type : String
  category : String
  colors : String
  editor_Choice : String
  order : String
  tags : String
  views : ℤ
  downloads : ℤ
  likes : ℤ
  comments : ℤ
  url : String
deriving DecidableEq, Repr

/-- One tuple of the parameter product (`crawl.py` line 149). -/
structure Comb where
  content_type : String
  image_type : String
  category : String
  colors : String
  editor_choice : String
  order : String
deriving DecidableEq, Repr

/-- `CONTENT_TYPES` (`crawl.py` line 119). -/
def CONTENT_TYPES : List String := ["authentic", "ai"]

/-- `IMAGE_TYPES` (`crawl.py` line 120). -/
def IMAGE_TYPES : List String := ["photo", "illustration"]

/-- `ORDERS` (`crawl.py` line 121). -/
def ORDERS : List String := ["popular"]

/-- `CATEGORIES` (`crawl.py` line 124, a disabled dimension). -/
def CATEGORIES : List String := ["Unknown"]

/-- `COLORS` (`crawl.py` line 125, a disabled dimension). -/
def COLORS : List String := ["Unknown"]

/-- `EDITOR_CHOICES` (`crawl.py` line 126, a disabled dimension). -/
def EDITOR_CHOICES : List String := ["Unknown"]

/-- `product(CONTENT_TYPES, IMAGE_TYPES, CATEGORIES, COLORS, EDITOR_CHOICES,
ORDERS)` (`crawl.py` line 149), in `itertools.product` order. -/
def param_combs : List Comb :=
  CONTENT_TYPES.flatMap fun ct =>
    IMAGE_TYPES.flatMap fun it =>
      CATEGORIES.flatMap fun cat =>
        COLORS.flatMap fun co =>
          EDITOR_CHOICES.flatMap fun ec =>
            ORDERS.map fun o =>
              { content_type := ct, image_type := it, category := cat,
                colors := co, editor_choice := ec, order := o }

/-- The tuple appended for one hit (`crawl.py` lines 166-182), reading the
hit fields in source evaluation order; a missing key raises `KeyError`
(modeled as `Except.error`).  The category-class columns come from the
enumerator combination, never from the hit. -/
def rowOfHit (c : Comb) (h : Hit) : Except String MRow :=
  match h.id with
  | none => .error "KeyError: id"
  | some i =>
  match h.type with
  | none => .error "KeyError: type"
  | some t =>
  match h.tags with
  | none => .error "KeyError: tags"
  | some tg =>
  match h.views with
  | none => .error "KeyError: views"
  | some v =>
  match h.downloads with
  | none => .error "KeyError: downloads"
  | some d =>
  match h.likes with
  | none => .error "KeyError: likes"
  | some l =>
  match h.comments with
  | none => .error "KeyError: comments"
  | some cm =>
  match h.largeImageURL with
  | none => .error "KeyError: largeImageURL"
  | some u =>
    .ok { id := i, content_Type := c.content_type, image_Type := t,
          category := c.category, colors := c.colors,
          editor_Choice := c.editor_choice, order := c.order, tags := tg,
          views := v, downloads := d, likes := l, comments := cm, url := u }

/-- The inner `for image in response` loop (`crawl.py` lines 165-182):
append one row per hit; the first hit with a missing key raises, aborting
everything (there is no handler anywhere in `fetch_metadata`). -/
def extractHits (c : Comb) : List Hit → List MRow → Except String (List MRow)
  | [], acc => .ok acc
  | h :: hs, acc =>
    match rowOfHit c h with
    | .error e => .error e
    | .ok r => extractHits c hs (acc ++ [r])

/-- The base request for one combination and page (`crawl.py`
lines 146, 154-155, 159). -/
def mkRequest (pp : ℕ) (c : Comb) (page : ℕ) : Request :=
  { content_type := c.content_type, image_type := c.image_type,
    page := page, per_page := pp, q := none }

/-- The page loop for one combination (`crawl.py` lines 158-182): issue the
pages in order, accumulate rows; an uncaught `KeyError` stops the loop (and
the requests that would have followed).  Returns the requests actually sent
and the outcome. -/
def runPages (api : Request → ApiResponse) (pp : ℕ) (c : Comb) :
    List ℕ → List MRow → List Request × Except String (List MRow)
  | [], acc => ([], .ok acc)
  | p :: ps, acc =>
    let req := sentRequest (mkRequest pp c p)
    match extractHits c (make_query api (mkRequest pp c p)) acc with
    | .error e => ([req], .error e)
    | .ok acc' =>
      let rest := runPages api pp c ps acc'
      (req :: rest.1, rest.2)

/-- The combination loop (`crawl.py` lines 152-182). -/
def runCombs (api : Request → ApiResponse) (pp n : ℕ) :
    List Comb → List MRow → List Request × Except String (List MRow)
  | [], acc => ([], .ok acc)
  | c :: cs, acc =>
    let pr := runPages api pp c (List.range' 1 (n / pp)) acc
    match pr.2 with
    | .error e => (pr.1, .error e)
    | .ok acc' =>
      let rest := runCombs api pp n cs acc'
      (pr.1 ++ rest.1, rest.2)

/-- `fetch_metadata(api_key, per_page, num_images)` (`crawl.py`
lines 106-185): the requests sent, and either the accumulated table or the
uncaught exception. -/
def fetch_metadata (api : Request → ApiResponse) (pp n : ℕ) :
    List Request × Except String (List MRow) :=
  runCombs api pp n param_combs []

/-!
### Asset fetcher (`fetch_image` / `fetch_images`, `crawl.py` lines 12-66)

The network is an oracle `String → Option ℕ` from URL to body (`none` is a
non-200), and the image directory is an association list from file path to
body.  `fetch_images` additionally counts the GET requests it makes.
-/

/-- `fetch_image(url, filepath)` (`crawl.py` lines 12-39): one GET; on 200
write the body at the path (overwriting), on failure print and leave the
file system alone.  Returns the success flag the source returns. -/
def fetch_image (net : String → Option ℕ) (url fp : String)
    (files : List (String × ℕ)) : List (String × ℕ) × Bool :=
  match net url with
  | some content => ((files.filter fun f => decide (f.1 ≠ fp)) ++ [(fp, content)], true)
  | none => (files, false)

/-- The target path `{image_dir}/{row["ID"]}.jpg` (`crawl.py` lines 60-61). -/
def filepathOf (dir : String) (r : MRow) : String :=
  dir ++ "/" ++ toString r.id ++ ".jpg"

/-- `fetch_images(metadata, image_dir)` (`crawl.py` lines 42-66): for each
row in order, skip it when the target file already exists, otherwise fetch.
Returns the final file set and the number of GET requests issued. -/
def fetch_images (net : String → Option ℕ) (dir : String) :
    List MRow → List (String × ℕ) → List (String × ℕ) × ℕ
  | [], files => (files, 0)
  | r :: rs, files =>
    let fp := filepathOf dir r
    if files.any fun f => f.1 == fp then
      fetch_images net dir rs files
    else
      let step := fetch_image net r.url fp files
      let rest := fetch_images net dir rs step.1
      (rest.1, rest.2 + 1)

/-!
### Predicates used by the theorems, and concrete test fixtures
-/

/-- A hit that carries every required key. -/
def completeHit (h : Hit) : Bool :=
  h.id.isSome && h.type.isSome && h.tags.isSome && h.views.isSome &&
    h.downloads.isSome && h.likes.isSome && h.comments.isSome &&
    h.largeImageURL.isSome

/-- A response whose payload the accumulator can flatten without a
`KeyError`: any non-200, or a 200 whose hits all carry every key. -/
def wellFormedResp : ApiResponse → Prop
  | .err _ => True
  | .ok hits => ∀ h ∈ hits, completeHit h = true

/-- The column values the accumulator never takes from the API response. -/
def placeholderInvariant (r : MRow) : Prop :=
  r.category = "Unknown" ∧ r.colors = "Unknown" ∧ r.editor_Choice = "Unknown" ∧
    r.order = "popular" ∧ (r.content_Type = "authentic" ∨ r.content_Type = "ai")

/-- The combination-tuple values that force `placeholderInvariant`. -/
def goodComb (c : Comb) : Prop :=
  c.category = "Unknown" ∧ c.colors = "Unknown" ∧ c.editor_choice = "Unknown" ∧
    c.order = "popular" ∧ (c.content_type = "authentic" ∨ c.content_type = "ai")

/-- ASCII lower-casing of one character. -/
def lowerChar (c : Char) : Char :=
  if 65 ≤ c.toNat ∧ c.toNat ≤ 90 then Char.ofNat (c.toNat + 32) else c

/-- Modelled from the spec: the claim's case-insensitive AI-indicator match
(the source's `str.contains` is case-sensitive; this definition follows the
claim's words, for comparison, by lower-casing before the literal match). -/
def hasAiTagCaseInsensitive (s : String) : Bool :=
  hasAiTag (some (String.mk (s.data.map lowerChar)))

/-- A row with `views = 0` and `likes = 5` (the claim C1 example). -/
def rowV0L5 : Row :=
  { id := some 1, content_Type := some "authentic", image_Type := some "photo",
    category := some "Unknown", colors := some "Unknown",
    editor_Choice := some "Unknown", order := some "popular", tags := some "",
    views := some 0, likes := some 5, downloads := some 0, comments := some 0,
    url := some "u" }

/-- A row with `views = 0` and `likes = 0` (the `0/0` case). -/
def rowV0L0 : Row :=
  { rowV0L5 with likes := some 0 }

/-- An `authentic` row whose tags match the AI pattern only up to case. -/
def rowMixedCase : Row :=
  { rowV0L5 with tags := some "AI Generated art", views := some 1 }

/-- An `ai` row with no AI-indicating tags. -/
def rowAlreadyAi : Row :=
  { rowV0L5 with content_Type := some "ai", tags := some "cat dog", views := some 1 }

/-- A row with a present id and a missing `Content_Type`. -/
def rowNoContentType : Row :=
  { rowV0L5 with id := some 2, content_Type := none, views := some 1 }

/-- First row of the median-fill example table: `Views = 10`. -/
def rowM1 : Row :=
  { rowV0L5 with id := some 1, views := some 10 }

/-- Second row of the median-fill example table: `Views = 20`. -/
def rowM2 : Row :=
  { rowV0L5 with id := some 2, views := some 20 }

/-- Third row of the median-fill example table: `Views` missing. -/
def rowM3 : Row :=
  { rowV0L5 with id := some 3, views := none }

/-- Fourth row of the median-fill example table: `Views = 40`. -/
def rowM4 : Row :=
  { rowV0L5 with id := some 4, views := some 40 }

/-- The `[10, 20, missing, 40]` views column of the claim C7 example. -/
def fourRowsC7 : List Row :=
  [rowM1, rowM2, rowM3, rowM4]

/-- A hit with every key present. -/
def goodHitC5 : Hit :=
  { id := some 7, type := some "photo", tags := some "cat", views := some 10,
    downloads := some 11, likes := some 12, comments := some 13,
    largeImageURL := some "url" }

/-- A hit lacking the `views` key (a schema violation). -/
def badHitC5 : Hit :=
  { goodHitC5 with views := none }

/-- An API oracle whose every 200 contains the schema-violating hit. -/
def apiC5 : Request → ApiResponse :=
  fun _ => .ok [badHitC5]

/-- An API oracle that always answers with a non-200. -/
def apiErrAllC5 : Request → ApiResponse :=
  fun _ => .err "http 500"

/-- The first enumerator combination: authentic photos. -/
def combAP : Comb :=
  { content_type := "authentic", image_type := "photo", category := "Unknown",
    colors := "Unknown", editor_choice := "Unknown", order := "popular" }

/-- The row `rowOfHit` builds from `goodHitC5` under `combAP`. -/
def mrowGoodC5 : MRow :=
  { id := 7, content_Type := "authentic", image_Type := "photo",
    category := "Unknown", colors := "Unknown", editor_Choice := "Unknown",
    order := "popular", tags := "cat", views := 10, downloads := 11,
    likes := 12, comments := 13, url := "url" }

/-- An API oracle that always answers with a non-200 (pagination fixture). -/
def apiErrC8 : Request → ApiResponse :=
  fun _ => .err "boom"

/-- A hit with every key present (accumulator-invariant fixture). -/
def goodHitC10 : Hit :=
  { id := some 3, type := some "illustration", tags := some "sky",
    views := some 1, downloads := some 2, likes := some 3, comments := some 4,
    largeImageURL := some "v" }

/-- An API oracle whose every 200 contains exactly `goodHitC10`. -/
def apiOkC10 : Request → ApiResponse :=
  fun _ => .ok [goodHitC10]

/-- The table `fetch_metadata` accumulates against `apiOkC10` with one page
per combination. -/
def rowsOkC10 : List MRow :=
  [{ id := 3, content_Type := "authentic", image_Type := "illustration",
     category := "Unknown", colors := "Unknown", editor_Choice := "Unknown",
     order := "popular", tags := "sky", views := 1, downloads := 2, likes := 3,
     comments := 4, url := "v" },
   { id := 3, content_Type := "authentic", image_Type := "illustration",
     category := "Unknown", colors := "Unknown", editor_Choice := "Unknown",
     order := "popular", tags := "sky", views := 1, downloads := 2, likes := 3,
     comments := 4, url := "v" },
   { id := 3, content_Type := "ai", image_Type := "illustration",
     category := "Unknown", colors := "Unknown", editor_Choice := "Unknown",
     order := "popular", tags := "sky", views := 1, downloads := 2, likes := 3,
     comments := 4, url := "v" },
   { id := 3, content_Type := "ai", image_Type := "illustration",
     category := "Unknown", colors := "Unknown", editor_Choice := "Unknown",
     order := "popular", tags := "sky", views := 1, downloads := 2, likes := 3,
     comments := 4, url := "v" }]

/-- A metadata row for the asset fetcher. -/
def mrowC6 : MRow :=
  { mrowGoodC5 with id := 1, url := "http-a" }

/-- A network on which every download fails (non-200). -/
def netNoneC6 : String → Option ℕ :=
  fun _ => none

/-- A network on which every download succeeds. -/
def netSomeC6 : String → Option ℕ :=
  fun _ => some 7


/-!
### Helper lemmas
-/

theorem mem_of_mem_dropDupByIDAux :
    ∀ (l : List Row) (seen : List (Option ℤ)) (x : Row),
      x ∈ dropDupByIDAux seen l → x ∈ l := by
  intro l
  induction l with
  | nil => intro seen x hx; simp [dropDupByIDAux] at hx
  | cons r rs ih =>
    intro seen x hx
    by_cases h : (seen.any fun s => decide (s = r.id)) = true
    · simp only [dropDupByIDAux] at hx
      rw [if_pos h] at hx
      exact List.mem_cons_of_mem _ (ih seen x hx)
    · simp only [dropDupByIDAux] at hx
      rw [if_neg h] at hx
      rcases List.mem_cons.mp hx with hEq | hx'
      · exact hEq ▸ List.mem_cons_self _ _
      · exact List.mem_cons_of_mem _ (ih _ x hx')

theorem seen_ne_of_mem_dropDupByIDAux :
    ∀ (l : List Row) (seen : List (Option ℤ)) (x : Row),
      x ∈ dropDupByIDAux seen l → ∀ s ∈ seen, s ≠ x.id := by
  intro l
  induction l with
  | nil => intro seen x hx; simp [dropDupByIDAux] at hx
  | cons r rs ih =>
    intro seen x hx
    by_cases h : (seen.any fun s => decide (s = r.id)) = true
    · simp only [dropDupByIDAux] at hx
      rw [if_pos h] at hx
      exact ih seen x hx
    · simp only [dropDupByIDAux] at hx
      rw [if_neg h] at hx
      rcases List.mem_cons.mp hx with hEq | hx'
      · intro s hs hcontra
        exact h (List.any_eq_true.mpr ⟨s, hs, by simp [hcontra, hEq]⟩)
      · intro s hs
        exact ih _ x hx' s (List.mem_cons_of_mem _ hs)

theorem nodup_ids_dropDupByIDAux :
    ∀ (l : List Row) (seen : List (Option ℤ)),
      ((dropDupByIDAux seen l).map (·.id)).Nodup := by
  intro l
  induction l with
  | nil => intro seen; simp [dropDupByIDAux]
  | cons r rs ih =>
    intro seen
    by_cases h : (seen.any fun s => decide (s = r.id)) = true
    · simp only [dropDupByIDAux]
      rw [if_pos h]
      exact ih seen
    · simp only [dropDupByIDAux]
      rw [if_neg h]
      simp only [List.map_cons, List.nodup_cons]
      refine ⟨?_, ih _⟩
      intro hmem
      rcases List.mem_map.mp hmem with ⟨y, hy, hyid⟩
      exact seen_ne_of_mem_dropDupByIDAux rs (r.id :: seen) y hy r.id
        (List.mem_cons_self _ _) hyid.symm

theorem exists_mem_dropDupByIDAux :
    ∀ (l : List Row) (seen : List (Option ℤ)) (r : Row),
      r ∈ l → (∀ s ∈ seen, s ≠ r.id) →
      ∃ x ∈ dropDupByIDAux seen l, x.id = r.id := by
  intro l
  induction l with
  | nil => intro seen r hr _; simp at hr
  | cons a rs ih =>
    intro seen r hr hseen
    by_cases h : (seen.any fun s => decide (s = a.id)) = true
    · rcases List.any_eq_true.mp h with ⟨s, hs, hsid⟩
      have hsid' : s = a.id := of_decide_eq_true hsid
      rcases List.mem_cons.mp hr with hEq | hr'
      · exact absurd (hsid'.trans (hEq ▸ rfl)) (hseen s hs)
      · rcases ih seen r hr' hseen with ⟨x, hx, hxid⟩
        refine ⟨x, ?_, hxid⟩
        simp only [dropDupByIDAux]
        rw [if_pos h]
        exact hx
    · by_cases hid : r.id = a.id
      · refine ⟨a, ?_, hid.symm⟩
        simp only [dropDupByIDAux]
        rw [if_neg h]
        exact List.mem_cons_self _ _
      · rcases List.mem_cons.mp hr with hEq | hr'
        · exact absurd (hEq ▸ rfl) hid
        · have hseen' : ∀ s ∈ a.id :: seen, s ≠ r.id := by
            intro s hs
            rcases List.mem_cons.mp hs with hEq | hs'
            · exact hEq ▸ fun hcontra => hid hcontra.symm
            · exact hseen s hs'
          rcases ih _ r hr' hseen' with ⟨x, hx, hxid⟩
          refine ⟨x, ?_, hxid⟩
          simp only [dropDupByIDAux]
          rw [if_neg h]
          exact List.mem_cons_of_mem _ hx

theorem find_first_of_mem_dropDupByIDAux :
    ∀ (l : List Row) (seen : List (Option ℤ)) (x : Row),
      x ∈ dropDupByIDAux seen l →
      l.find? (fun y => decide (y.id = x.id)) = some x := by
  intro l
  induction l with
  | nil => intro seen x hx; simp [dropDupByIDAux] at hx
  | cons a rs ih =>
    intro seen x hx
    by_cases h : (seen.any fun s => decide (s = a.id)) = true
    · simp only [dropDupByIDAux] at hx
      rw [if_pos h] at hx
      rcases List.any_eq_true.mp h with ⟨s, hs, hsid⟩
      have hsid' : s = a.id := of_decide_eq_true hsid
      have hne : a.id ≠ x.id :=
        hsid' ▸ seen_ne_of_mem_dropDupByIDAux rs seen x hx s hs
      rw [List.find?_cons_of_neg _ (by simpa using hne)]
      exact ih seen x hx
    · simp only [dropDupByIDAux] at hx
      rw [if_neg h] at hx
      rcases List.mem_cons.mp hx with hEq | hx'
      · subst hEq
        rw [List.find?_cons_of_pos _ (by simp)]
      · have hne : a.id ≠ x.id :=
          seen_ne_of_mem_dropDupByIDAux rs (a.id :: seen) x hx' a.id
            (List.mem_cons_self _ _)
        rw [List.find?_cons_of_neg _ (by simpa using hne)]
        exact ih _ x hx'

theorem cleanTransform_id (rows : List Row) (r : Row) :
    (cleanTransform rows r).id = r.id := by
  unfold cleanTransform fillRow relabelRow
  split <;> rfl

theorem cleanTransform_views (rows : List Row) (r : Row) :
    (cleanTransform rows r).views = fillNum (medViews rows) r.views := by
  unfold cleanTransform fillRow relabelRow
  split <;> rfl

theorem cleanTransform_likes (rows : List Row) (r : Row) :
    (cleanTransform rows r).likes = fillNum (medLikes rows) r.likes := by
  unfold cleanTransform fillRow relabelRow
  split <;> rfl

theorem cleanTransform_downloads (rows : List Row) (r : Row) :
    (cleanTransform rows r).downloads = fillNum (medDownloads rows) r.downloads := by
  unfold cleanTransform fillRow relabelRow
  split <;> rfl

theorem cleanTransform_comments (rows : List Row) (r : Row) :
    (cleanTransform rows r).comments = fillNum (medComments rows) r.comments := by
  unfold cleanTransform fillRow relabelRow
  split <;> rfl

theorem cleanTransform_content (rows : List Row) (r : Row) :
    (cleanTransform rows r).content_Type =
      if misMask r then some "ai" else fillUnknownStr r.content_Type := by
  unfold cleanTransform fillRow relabelRow
  split <;> rename_i h <;> simp [h, fillUnknownStr]

/-!
### Claim theorems
-/

/-- Claim C1, counterexample to the claim as stated: on a row with
`views = 0` and `likes = 5` the engineered `Likes_Per_View` cell is `+inf`,
not `0` — `fillna(0)` replaces only the `NaN` arising from `0/0`, while
`5/0` gives a signed infinity under pandas division. -/
theorem c1_counterexample :
    (engineerRatios rowV0L5).likes_Per_View = PVal.posInf ∧
      (engineerRatios rowV0L5).likes_Per_View ≠ PVal.num 0 := by
  decide

/-- Claim C1 (amended): `preprocess` sets each derived ratio cell to
`raw / views`; when `views = 0` the cell becomes `0` exactly when the raw
counter is also `0` (the `0/0` `NaN` is filled with `0`), while a positive
raw counter over `views = 0` yields `+inf`, and a nonzero denominator gives
the exact quotient. -/
theorem c1_ratio_zero_division (r : Row) :
    (r.views = some 0 → r.likes = some 0 →
        (engineerRatios r).likes_Per_View = PVal.num 0)
  ∧ (∀ l : ℚ, r.views = some 0 → r.likes = some l → 0 < l →
        (engineerRatios r).likes_Per_View = PVal.posInf)
  ∧ (∀ l v : ℚ, r.likes = some l → r.views = some v → v ≠ 0 →
        (engineerRatios r).likes_Per_View = PVal.num (l / v))
  ∧ (r.views = some 0 → r.downloads = some 0 →
        (engineerRatios r).downloads_Per_View = PVal.num 0)
  ∧ (∀ d : ℚ, r.views = some 0 → r.downloads = some d → 0 < d →
        (engineerRatios r).downloads_Per_View = PVal.posInf)
  ∧ (∀ d v : ℚ, r.downloads = some d → r.views = some v → v ≠ 0 →
        (engineerRatios r).downloads_Per_View = PVal.num (d / v))
  ∧ (r.views = some 0 → r.comments = some 0 →
        (engineerRatios r).comments_Per_View = PVal.num 0)
  ∧ (∀ q : ℚ, r.views = some 0 → r.comments = some q → 0 < q →
        (engineerRatios r).comments_Per_View = PVal.posInf)
  ∧ (∀ q v : ℚ, r.comments = some q → r.views = some v → v ≠ 0 →
        (engineerRatios r).comments_Per_View = PVal.num (q / v)) := by
  refine ⟨?_, ?_, ?_, ?_, ?_, ?_, ?_, ?_, ?_⟩
  · intro hv hl; simp [engineerRatios, pandasDiv, fillZero, hv, hl]
  · intro l hv hl hpos
    simp [engineerRatios, pandasDiv, fillZero, hv, hl, hpos, hpos.ne']
  · intro l v hl hv hvne
    simp [engineerRatios, pandasDiv, fillZero, hl, hv, hvne]
  · intro hv hd; simp [engineerRatios, pandasDiv, fillZero, hv, hd]
  · intro d hv hd hpos
    simp [engineerRatios, pandasDiv, fillZero, hv, hd, hpos, hpos.ne']
  · intro d v hd hv hvne
    simp [engineerRatios, pandasDiv, fillZero, hd, hv, hvne]
  · intro hv hq; simp [engineerRatios, pandasDiv, fillZero, hv, hq]
  · intro q hv hq hpos
    simp [engineerRatios, pandasDiv, fillZero, hv, hq, hpos, hpos.ne']
  · intro q v hq hv hvne
    simp [engineerRatios, pandasDiv, fillZero, hq, hv, hvne]

/-- Claim C1, witness: the amended theorem applied to the concrete `0/0`
row gives `Likes_Per_View = 0`. -/
theorem c1_ratio_zero_division_witness :
    (engineerRatios rowV0L0).likes_Per_View = PVal.num 0 :=
  (c1_ratio_zero_division rowV0L0).1 rfl rfl

/-- Claim C9: the binary content-type indicator of `preprocess` maps
`authentic` to `0` and `ai` to `1`, and every other value — including the
`"Unknown"` placeholder that cleaning substitutes for a missing
`content_type` — to a missing cell. -/
theorem c9_content_type_indicator (ct : Option String) :
    (booleanContentType ct = some 0 ↔ ct = some "authentic")
  ∧ (booleanContentType ct = some 1 ↔ ct = some "ai")
  ∧ (ct ≠ some "authentic" → ct ≠ some "ai" → booleanContentType ct = none)
  ∧ booleanContentType (some "Unknown") = none := by
  rcases ct with _ | s
  · refine ⟨by simp [booleanContentType], by simp [booleanContentType],
      fun _ _ => rfl, rfl⟩
  · by_cases h1 : s = "authentic"
    · subst h1
      refine ⟨by simp [booleanContentType], by simp [booleanContentType],
        fun hcontra _ => absurd rfl hcontra, rfl⟩
    · by_cases h2 : s = "ai"
      · subst h2
        refine ⟨by simp [booleanContentType], by simp [booleanContentType],
          fun _ hcontra => absurd rfl hcontra, rfl⟩
      · refine ⟨by simp [booleanContentType, h1, h2], by simp [booleanContentType, h1, h2],
          fun _ _ => by simp [booleanContentType, h1, h2], rfl⟩

/-- Claim C9, witness: the indicator at the `"Unknown"` placeholder is a
missing cell. -/
theorem c9_content_type_indicator_witness :
    booleanContentType (some "Unknown") = none :=
  (c9_content_type_indicator (some "Unknown")).2.2.1 (by decide) (by decide)

/-- Claim C2, counterexample to the claim as stated: the tags
`"AI Generated art"` match the AI-indicator phrases case-insensitively, yet
`clean` leaves the row labeled `authentic` — the source's `str.contains`
match is case-sensitive, not case-insensitive as claimed. -/
theorem c2_counterexample :
    hasAiTagCaseInsensitive "AI Generated art" = true ∧
      ((clean [rowMixedCase]).1.map (·.content_Type)) = [some "authentic"] := by
  decide

/-- Claim C2 (amended): `clean` relabels a kept row to `content_type = ai`
exactly when it is currently `authentic` and its tags contain one of the
four AI-indicator phrases under a case-sensitive substring match, or its
image type contains `"vector/ai"`; otherwise the label is kept (modulo the
later `"Unknown"` fill), and in particular a row already labeled `ai` is
never relabeled to anything else. -/
theorem c2_relabel_one_directional (rows : List Row) :
    List.Forall₂ (fun r r' =>
        (r'.content_Type =
          if misMask r then some "ai" else fillUnknownStr r.content_Type)
      ∧ (r.content_Type = some "ai" → r'.content_Type = some "ai"))
      (cleanKept rows) ((clean rows).1) := by
  have hmap : (clean rows).1 = (cleanKept rows).map (cleanTransform rows) := rfl
  rw [hmap, List.forall₂_map_right_iff]
  refine List.forall₂_same.mpr ?_
  intro r _
  constructor
  · exact cleanTransform_content rows r
  · intro hai
    have hmask : misMask r = false := by
      simp [misMask, hai]
    rw [cleanTransform_content rows r, hmask]
    simp [fillUnknownStr, hai]

/-- Claim C2, witness: on a one-row table whose row is already labeled
`ai` with no AI-indicating tags, cleaning keeps the `ai` label. -/
theorem c2_relabel_one_directional_witness :
    (cleanTransform [rowAlreadyAi] rowAlreadyAi).content_Type = some "ai" :=
  ((List.forall₂_cons.mp (c2_relabel_one_directional [rowAlreadyAi])).1).2 rfl

/-- Claim C3, counterexample to the claim as stated: a row with a missing
`content_type` comes out of `clean` labeled with the `"Unknown"`
placeholder, which is neither `authentic` nor `ai`. -/
theorem c3_counterexample :
    ((clean [rowNoContentType]).1.map (·.content_Type)) = [some "Unknown"] ∧
      "Unknown" ≠ "authentic" ∧ "Unknown" ≠ "ai" := by
  decide

/-- Claim C3 (amended): after `clean`, every row's `content_type` is
non-null — a missing `content_type` is filled with the `"Unknown"`
placeholder rather than resolved to `authentic` or `ai`, so the value set
is not confined to those two labels. -/
theorem c3_content_type_filled (rows : List Row) :
    (∀ r' ∈ (clean rows).1, r'.content_Type.isSome = true)
  ∧ List.Forall₂ (fun r r' => r.content_Type = none → r'.content_Type = some "Unknown")
      (cleanKept rows) ((clean rows).1) := by
  constructor
  · intro r' hr'
    rcases List.mem_map.mp hr' with ⟨r, _, rfl⟩
    rw [cleanTransform_content rows r]
    by_cases h : misMask r = true
    · simp [h]
    · cases hct : r.content_Type <;> simp [h, hct, fillUnknownStr]
  · have hmap : (clean rows).1 = (cleanKept rows).map (cleanTransform rows) := rfl
    rw [hmap, List.forall₂_map_right_iff]
    refine List.forall₂_same.mpr ?_
    intro r _ hnone
    have hmask : misMask r = false := by
      simp [misMask, hnone]
    rw [cleanTransform_content rows r, hmask]
    simp [fillUnknownStr, hnone]

/-- Claim C3, witness: the concrete row with a missing `content_type`
comes out labeled `"Unknown"`. -/
theorem c3_content_type_filled_witness :
    (cleanTransform [rowNoContentType] rowNoContentType).content_Type = some "Unknown" :=
  (List.forall₂_cons.mp ((c3_content_type_filled [rowNoContentType]).2)).1 rfl

/-- Claim C4: `clean` drops duplicate ids keeping the first occurrence in
table order — the validated table's ids are pairwise distinct, every id
present in the input survives, each kept row is the *first* row with its id
among the rows that have an id, the output is exactly those survivors
(transformed by the later relabel/fill steps), and a two-row table whose
rows share an id reports a duplicate count of 1. -/
theorem c4_dedup_keeps_first :
    (∀ rows : List Row,
        (((clean rows).1.map (·.id)).Nodup)
      ∧ (∀ r ∈ rows, r.id.isSome = true → ∃ r' ∈ (clean rows).1, r'.id = r.id)
      ∧ (∀ r0 ∈ cleanKept rows,
           (rows.filter fun s => s.id.isSome).find? (fun y => decide (y.id = r0.id))
             = some r0)
      ∧ (clean rows).1 = (cleanKept rows).map (cleanTransform rows))
  ∧ (∀ r1 r2 : Row, r1.id.isSome = true → r1.id = r2.id →
        ((clean [r1, r2]).2).duplication = 1) := by
  constructor
  · intro rows
    have hmap : (clean rows).1 = (cleanKept rows).map (cleanTransform rows) := rfl
    refine ⟨?_, ?_, ?_, hmap⟩
    · have h2 : (clean rows).1.map (·.id)
          = (cleanKept rows).map (fun a => (cleanTransform rows a).id) := by
        rw [hmap, List.map_map]
        rfl
      rw [h2, List.map_congr_left fun a _ => cleanTransform_id rows a]
      exact nodup_ids_dropDupByIDAux _ _
    · intro r hr hsome
      have hrf : r ∈ rows.filter fun s => s.id.isSome :=
        List.mem_filter.mpr ⟨hr, hsome⟩
      rcases exists_mem_dropDupByIDAux _ [] r hrf (by simp) with ⟨x, hx, hxid⟩
      refine ⟨cleanTransform rows x, ?_, ?_⟩
      · rw [hmap]; exact List.mem_map_of_mem _ hx
      · rw [cleanTransform_id]; exact hxid
    · intro r0 hr0
      exact find_first_of_mem_dropDupByIDAux _ [] r0 hr0
  · intro r1 r2 h1 h2
    have h2s : r2.id.isSome = true := by rw [← h2]; exact h1
    have hfilter : ([r1, r2].filter fun s => s.id.isSome) = [r1, r2] := by
      simp [List.filter, h1, h2s]
    have hkept : cleanKept [r1, r2] = [r1] := by
      unfold cleanKept dropDupByID
      rw [hfilter]
      simp [dropDupByIDAux, h2]
    simp [clean, hfilter, hkept]

/-- Claim C4, witness: two concrete rows sharing id 1 yield a duplicate
count of 1. -/
theorem c4_dedup_keeps_first_witness :
    ((clean [rowM1, rowV0L5]).2).duplication = 1 :=
  c4_dedup_keeps_first.2 rowM1 rowV0L5 (by decide) (by decide)

/-- Claim C7: `clean` fills each missing numeric cell with that column's
median computed over the table after the missing-id and duplicate-id drops
(present cells are kept unchanged, and each column is filled independently,
its median ignoring that column's own missing cells); on the views column
`[10, 20, missing, 40]` the missing cell becomes 20. -/
theorem c7_median_fill :
    (∀ (rows : List Row) (i : ℕ) (r r' : Row),
        (cleanKept rows)[i]? = some r → ((clean rows).1)[i]? = some r' →
        ((r.views = none → r'.views = medViews rows)
          ∧ ∀ v, r.views = some v → r'.views = some v)
      ∧ ((r.likes = none → r'.likes = medLikes rows)
          ∧ ∀ v, r.likes = some v → r'.likes = some v)
      ∧ ((r.downloads = none → r'.downloads = medDownloads rows)
          ∧ ∀ v, r.downloads = some v → r'.downloads = some v)
      ∧ ((r.comments = none → r'.comments = medComments rows)
          ∧ ∀ v, r.comments = some v → r'.comments = some v))
  ∧ (((clean fourRowsC7).1.map (·.views)) = [some 10, some 20, some 20, some 40]
      ∧ medViews fourRowsC7 = some 20) := by
  constructor
  · intro rows i r r' hk hc
    have hmap : ((clean rows).1)[i]? = ((cleanKept rows)[i]?).map (cleanTransform rows) :=
      List.getElem?_map _ _ _
    rw [hk] at hmap
    rw [hc] at hmap
    have hr' : r' = cleanTransform rows r := by
      simpa using hmap
    subst hr'
    refine ⟨⟨?_, ?_⟩, ⟨?_, ?_⟩, ⟨?_, ?_⟩, ⟨?_, ?_⟩⟩
    · intro hnone; rw [cleanTransform_views, hnone]; rfl
    · intro v hv; rw [cleanTransform_views, hv]; rfl
    · intro hnone; rw [cleanTransform_likes, hnone]; rfl
    · intro v hv; rw [cleanTransform_likes, hv]; rfl
    · intro hnone; rw [cleanTransform_downloads, hnone]; rfl
    · intro v hv; rw [cleanTransform_downloads, hv]; rfl
    · intro hnone; rw [cleanTransform_comments, hnone]; rfl
    · intro v hv; rw [cleanTransform_comments, hv]; rfl
  · exact ⟨by decide, by decide⟩

/-- Claim C7, witness: on the concrete `[10, 20, missing, 40]` table the
third row's missing views cell is filled with the views-column median. -/
theorem c7_median_fill_witness :
    (cleanTransform fourRowsC7 rowM3).views = medViews fourRowsC7 :=
  ((c7_median_fill.1 fourRowsC7 2 rowM3 (cleanTransform fourRowsC7 rowM3)
      (by decide) (by decide)).1).1 rfl

theorem rowOfHit_ok_facts (c : Comb) (h : Hit) (r : MRow)
    (hok : rowOfHit c h = .ok r) :
    (r.category = c.category ∧ r.colors = c.colors ∧
        r.editor_Choice = c.editor_choice ∧ r.order = c.order ∧
        r.content_Type = c.content_type)
  ∧ (h.views = some r.views ∧ h.likes = some r.likes ∧
        h.downloads = some r.downloads ∧ h.comments = some r.comments)
  ∧ completeHit h = true := by
  cases hI : h.id with
  | none => simp [rowOfHit, hI] at hok
  | some i =>
  cases hT : h.type with
  | none => simp [rowOfHit, hI, hT] at hok
  | some t =>
  cases hG : h.tags with
  | none => simp [rowOfHit, hI, hT, hG] at hok
  | some tg =>
  cases hV : h.views with
  | none => simp [rowOfHit, hI, hT, hG, hV] at hok
  | some v =>
  cases hD : h.downloads with
  | none => simp [rowOfHit, hI, hT, hG, hV, hD] at hok
  | some d =>
  cases hL : h.likes with
  | none => simp [rowOfHit, hI, hT, hG, hV, hD, hL] at hok
  | some l =>
  cases hC : h.comments with
  | none => simp [rowOfHit, hI, hT, hG, hV, hD, hL, hC] at hok
  | some cm =>
  cases hU : h.largeImageURL with
  | none => simp [rowOfHit, hI, hT, hG, hV, hD, hL, hC, hU] at hok
  | some u =>
    simp only [rowOfHit, hI, hT, hG, hV, hD, hL, hC, hU, Except.ok.injEq] at hok
    subst hok
    refine ⟨⟨rfl, rfl, rfl, rfl, rfl⟩, ⟨rfl, rfl, rfl, rfl⟩, ?_⟩
    simp [completeHit, hI, hT, hG, hV, hD, hL, hC, hU]

theorem rowOfHit_ok_of_complete (c : Comb) (h : Hit)
    (hc : completeHit h = true) : ∃ r, rowOfHit c h = .ok r := by
  simp only [completeHit, Bool.and_eq_true, Option.isSome_iff_exists] at hc
  obtain ⟨⟨⟨⟨⟨⟨⟨⟨i, hI⟩, t, hT⟩, tg, hG⟩, v, hV⟩, d, hD⟩, l, hL⟩, cm, hC⟩, u, hU⟩ := hc
  refine ⟨{ id := i, content_Type := c.content_type, image_Type := t,
            category := c.category, colors := c.colors,
            editor_Choice := c.editor_choice, order := c.order, tags := tg,
            views := v, downloads := d, likes := l, comments := cm,
            url := u }, ?_⟩
  simp [rowOfHit, hI, hT, hG, hV, hD, hL, hC, hU]

theorem extractHits_ok_of_complete (c : Comb) :
    ∀ (hits : List Hit), (∀ h ∈ hits, completeHit h = true) →
      ∀ acc, ∃ out, extractHits c hits acc = .ok out := by
  intro hits
  induction hits with
  | nil => intro _ acc; exact ⟨acc, rfl⟩
  | cons h hs ih =>
    intro hall acc
    rcases rowOfHit_ok_of_complete c h (hall h (List.mem_cons_self _ _)) with ⟨r0, hr0⟩
    rcases ih (fun x hx => hall x (List.mem_cons_of_mem _ hx)) (acc ++ [r0]) with ⟨out, hout⟩
    exact ⟨out, by simp [extractHits, hr0, hout]⟩

theorem extractHits_mem (c : Comb) :
    ∀ (hits : List Hit) (acc out : List MRow),
      extractHits c hits acc = .ok out →
      ∀ r ∈ out, r ∈ acc ∨ ∃ h, rowOfHit c h = .ok r := by
  intro hits
  induction hits with
  | nil =>
    intro acc out hok r hr
    simp only [extractHits, Except.ok.injEq] at hok
    exact Or.inl (hok ▸ hr)
  | cons h hs ih =>
    intro acc out hok r hr
    cases hR : rowOfHit c h with
    | error e => simp [extractHits, hR] at hok
    | ok r0 =>
      simp only [extractHits, hR] at hok
      rcases ih (acc ++ [r0]) out hok r hr with hmem | hprod
      · rcases List.mem_append.mp hmem with hacc | hr0'
        · exact Or.inl hacc
        · exact Or.inr ⟨h, by rw [hR, List.mem_singleton.mp hr0']⟩
      · exact Or.inr hprod

theorem make_query_complete (api : Request → ApiResponse)
    (hwf : ∀ req, wellFormedResp (api req)) (req : Request) :
    ∀ h ∈ make_query api req, completeHit h = true := by
  intro h hh
  unfold make_query at hh
  cases hA : api (sentRequest req) with
  | ok hits =>
    have := hwf (sentRequest req)
    rw [hA] at this hh
    exact this h hh
  | err body => rw [hA] at hh; simp at hh

theorem runPages_ok_trace (api : Request → ApiResponse) (pp : ℕ) (c : Comb) :
    ∀ (ps : List ℕ) (acc out : List MRow),
      (runPages api pp c ps acc).2 = .ok out →
      (runPages api pp c ps acc).1 = ps.map fun p => sentRequest (mkRequest pp c p) := by
  intro ps
  induction ps with
  | nil => intro acc out _; rfl
  | cons p ps ih =>
    intro acc out h
    cases hE : extractHits c (make_query api (mkRequest pp c p)) acc with
    | error e => simp [runPages, hE] at h
    | ok acc' =>
      simp only [runPages, hE] at h ⊢
      rw [List.map_cons]
      exact congrArg _ (ih acc' out h)

theorem runCombs_ok_trace (api : Request → ApiResponse) (pp n : ℕ) :
    ∀ (cs : List Comb) (acc out : List MRow),
      (runCombs api pp n cs acc).2 = .ok out →
      (runCombs api pp n cs acc).1
        = cs.flatMap fun c =>
            (List.range' 1 (n / pp)).map fun p => sentRequest (mkRequest pp c p) := by
  intro cs
  induction cs with
  | nil => intro acc out _; rfl
  | cons c cs ih =>
    intro acc out h
    cases hP : (runPages api pp c (List.range' 1 (n / pp)) acc).2 with
    | error e =>
      simp only [runCombs, hP] at h
      simp at h
    | ok acc' =>
      simp only [runCombs, hP] at h ⊢
      rw [List.flatMap_cons]
      rw [runPages_ok_trace api pp c _ acc acc' hP, ih acc' out h]

theorem runPages_mem (api : Request → ApiResponse) (pp : ℕ) (c : Comb) :
    ∀ (ps : List ℕ) (acc out : List MRow),
      (runPages api pp c ps acc).2 = .ok out →
      ∀ r ∈ out, r ∈ acc ∨ ∃ h, rowOfHit c h = .ok r := by
  intro ps
  induction ps with
  | nil =>
    intro acc out h r hr
    simp only [runPages, Except.ok.injEq] at h
    exact Or.inl (h ▸ hr)
  | cons p ps ih =>
    intro acc out h r hr
    cases hE : extractHits c (make_query api (mkRequest pp c p)) acc with
    | error e => simp [runPages, hE] at h
    | ok acc' =>
      simp only [runPages, hE] at h
      rcases ih acc' out h r hr with hacc' | hprod
      · exact extractHits_mem c _ acc acc' hE r hacc'
      · exact Or.inr hprod

theorem runCombs_mem (api : Request → ApiResponse) (pp n : ℕ) :
    ∀ (cs : List Comb) (acc out : List MRow),
      (runCombs api pp n cs acc).2 = .ok out →
      ∀ r ∈ out, r ∈ acc ∨ ∃ c ∈ cs, ∃ h, rowOfHit c h = .ok r := by
  intro cs
  induction cs with
  | nil =>
    intro acc out h r hr
    simp only [runCombs, Except.ok.injEq] at h
    exact Or.inl (h ▸ hr)
  | cons c cs ih =>
    intro acc out h r hr
    cases hP : (runPages api pp c (List.range' 1 (n / pp)) acc).2 with
    | error e =>
      simp only [runCombs, hP] at h
      simp at h
    | ok acc' =>
      simp only [runCombs, hP] at h
      rcases ih acc' out h r hr with hacc' | ⟨c', hc', hh⟩
      · rcases runPages_mem api pp c _ acc acc' hP r hacc' with hacc | hh
        · exact Or.inl hacc
        · exact Or.inr ⟨c, List.mem_cons_self _ _, hh⟩
      · exact Or.inr ⟨c', List.mem_cons_of_mem _ hc', hh⟩

theorem runPages_ok_of_wf (api : Request → ApiResponse) (pp : ℕ) (c : Comb)
    (hwf : ∀ req, wellFormedResp (api req)) :
    ∀ (ps : List ℕ) (acc : List MRow),
      ∃ out, (runPages api pp c ps acc).2 = .ok out := by
  intro ps
  induction ps with
  | nil => intro acc; exact ⟨acc, rfl⟩
  | cons p ps ih =>
    intro acc
    rcases extractHits_ok_of_complete c (make_query api (mkRequest pp c p))
        (make_query_complete api hwf _) acc with ⟨acc', hE⟩
    rcases ih acc' with ⟨out, hout⟩
    exact ⟨out, by simp [runPages, hE, hout]⟩

theorem runCombs_ok_of_wf (api : Request → ApiResponse) (pp n : ℕ)
    (hwf : ∀ req, wellFormedResp (api req)) :
    ∀ (cs : List Comb) (acc : List MRow),
      ∃ out, (runCombs api pp n cs acc).2 = .ok out := by
  intro cs
  induction cs with
  | nil => intro acc; exact ⟨acc, rfl⟩
  | cons c cs ih =>
    intro acc
    rcases runPages_ok_of_wf api pp c hwf (List.range' 1 (n / pp)) acc with ⟨acc', hP⟩
    rcases ih acc' with ⟨out, hout⟩
    refine ⟨out, ?_⟩
    have hP' : runPages api pp c (List.range' 1 (n / pp)) acc
        = ((runPages api pp c (List.range' 1 (n / pp)) acc).1, Except.ok acc') := by
      rw [← hP]
    simp [runCombs, hP, hout]

/-- Claim C8: whenever the crawl completes, each parameter combination is
queried with exactly the sequential pages `1 … ⌊num_images / per_page⌋`
(integer floor), and with `per_page = 200`, `num_images = 150` zero pages
are queried for every combination, whatever the API answers. -/
theorem c8_pagination_floor :
    (∀ (api : Request → ApiResponse) (pp n : ℕ) (rows : List MRow), 0 < pp →
        (fetch_metadata api pp n).2 = .ok rows →
        (fetch_metadata api pp n).1
          = param_combs.flatMap fun c =>
              (List.range' 1 (n / pp)).map fun p => sentRequest (mkRequest pp c p))
  ∧ (∀ api : Request → ApiResponse, fetch_metadata api 200 150 = ([], .ok [])) := by
  constructor
  · intro api pp n rows _ h
    exact runCombs_ok_trace api pp n param_combs [] rows h
  · intro api
    rfl

/-- Claim C8, witness: against an all-error API with `per_page = 1` and
`num_images = 2`, the issued queries are exactly pages 1 and 2 for each of
the four combinations. -/
theorem c8_pagination_floor_witness :
    (fetch_metadata apiErrC8 1 2).1
      = param_combs.flatMap fun c =>
          (List.range' 1 (2 / 1)).map fun p => sentRequest (mkRequest 1 c p) :=
  c8_pagination_floor.1 apiErrC8 1 2 [] (by decide) (by rfl)

/-- Claim C10: every row of a completed `fetch_metadata` table carries the
fixed placeholders `Category = Colors = Editor_Choice = "Unknown"` and
`Order = "popular"`, and a `Content_Type` that is one of the two enumerator
values `authentic`/`ai` — none of these five columns ever holds a value
taken from the API response. -/
theorem c10_fixed_placeholders (api : Request → ApiResponse) (pp n : ℕ)
    (rows : List MRow) (hok : (fetch_metadata api pp n).2 = .ok rows) :
    ∀ r ∈ rows, r.category = "Unknown" ∧ r.colors = "Unknown" ∧
      r.editor_Choice = "Unknown" ∧ r.order = "popular" ∧
      (r.content_Type = "authentic" ∨ r.content_Type = "ai") := by
  intro r hr
  rcases runCombs_mem api pp n param_combs [] rows hok r hr with hacc | ⟨c, hc, h, hrow⟩
  · simp at hacc
  · have hgood : goodComb c := by
      revert hc
      have : ∀ c' ∈ param_combs, goodComb c' := by
        unfold goodComb
        decide
      exact this c
    rcases rowOfHit_ok_facts c h r hrow with ⟨⟨h1, h2, h3, h4, h5⟩, -, -⟩
    rcases hgood with ⟨g1, g2, g3, g4, g5⟩
    exact ⟨h1.trans g1, h2.trans g2, h3.trans g3, h4.trans g4, h5 ▸ g5⟩

/-- Claim C10, witness: the first row accumulated against a well-formed
one-hit API carries the placeholder values. -/
theorem c10_fixed_placeholders_witness :
    (rowsOkC10.getD 0 mrowGoodC5).category = "Unknown" ∧
      (rowsOkC10.getD 0 mrowGoodC5).colors = "Unknown" ∧
      (rowsOkC10.getD 0 mrowGoodC5).editor_Choice = "Unknown" ∧
      (rowsOkC10.getD 0 mrowGoodC5).order = "popular" ∧
      ((rowsOkC10.getD 0 mrowGoodC5).content_Type = "authentic" ∨
        (rowsOkC10.getD 0 mrowGoodC5).content_Type = "ai") :=
  c10_fixed_placeholders apiOkC10 1 1 rowsOkC10 (by rfl) _ (by decide)

/-- Claim C5, counterexample to the claim as stated: one hit lacking the
`views` key makes the whole crawl abort with the uncaught `KeyError` — only
1 of the 4 combination pages is ever queried, instead of the failure being
isolated to that row. -/
theorem c5_counterexample :
    (fetch_metadata apiC5 1 1).2 = .error "KeyError: views" ∧
      (fetch_metadata apiC5 1 1).1.length = 1 ∧ param_combs.length = 4 := by
  refine ⟨by rfl, by rfl, by rfl⟩

/-- Claim C5 (amended): per-page failures (non-200 responses) are isolated —
the crawl completes whenever every 200-response hit carries all required
keys, whatever pages fail; engagement counters are never silently defaulted
(the accumulated row takes them from the hit, and a hit lacking any
required key yields an error instead of a row); but that error aborts the
entire crawl rather than only the offending row. -/
theorem c5_failure_isolation :
    (∀ (api : Request → ApiResponse) (pp n : ℕ),
        (∀ req, wellFormedResp (api req)) →
        ∃ rows, (fetch_metadata api pp n).2 = .ok rows)
  ∧ (∀ (c : Comb) (h : Hit) (r : MRow), rowOfHit c h = .ok r →
        h.views = some r.views ∧ h.likes = some r.likes ∧
          h.downloads = some r.downloads ∧ h.comments = some r.comments)
  ∧ (∀ (c : Comb) (h : Hit), completeHit h = false →
        ∀ r : MRow, rowOfHit c h ≠ .ok r)
  ∧ ((fetch_metadata apiC5 1 1).2.isOk = false ∧
        (fetch_metadata apiC5 1 1).1.length < param_combs.length) := by
  refine ⟨?_, ?_, ?_, by decide, by decide⟩
  · intro api pp n hwf
    exact runCombs_ok_of_wf api pp n hwf param_combs []
  · intro c h r hok
    exact (rowOfHit_ok_facts c h r hok).2.1
  · intro c h hfalse r hok
    have := (rowOfHit_ok_facts c h r hok).2.2
    rw [hfalse] at this
    exact Bool.false_ne_true this

/-- Claim C5, witness: an all-error API still completes (page failures are
isolated), the good hit's counters land unchanged in the accumulated row,
and the hit lacking `views` produces no row. -/
theorem c5_failure_isolation_witness :
    (∃ rows, (fetch_metadata apiErrAllC5 1 1).2 = .ok rows)
  ∧ goodHitC5.views = some mrowGoodC5.views
  ∧ rowOfHit combAP badHitC5 ≠ .ok mrowGoodC5 :=
  ⟨c5_failure_isolation.1 apiErrAllC5 1 1 (fun _ => trivial),
   (c5_failure_isolation.2.1 combAP goodHitC5 mrowGoodC5 (by rfl)).1,
   c5_failure_isolation.2.2.1 combAP badHitC5 (by decide) mrowGoodC5⟩

theorem fetch_images_path_mono (net : String → Option ℕ) (dir : String) :
    ∀ (rows : List MRow) (files : List (String × ℕ)) (p : String),
      (files.any fun f => f.1 == p) = true →
      ((fetch_images net dir rows files).1.any fun f => f.1 == p) = true := by
  intro rows
  induction rows with
  | nil => intro files p hp; exact hp
  | cons r rs ih =>
    intro files p hp
    by_cases h : (files.any fun f => f.1 == filepathOf dir r) = true
    · simp only [fetch_images]
      rw [if_pos h]
      exact ih files p hp
    · simp only [fetch_images]
      rw [if_neg h]
      cases hn : net r.url with
      | some content =>
        refine ih _ p ?_
        simp only [fetch_image, hn]
        rw [List.any_append]
        rcases List.any_eq_true.mp hp with ⟨f, hf, hfp⟩
        have hp' : f.1 = p := by simpa using hfp
        by_cases hffp : f.1 = filepathOf dir r
        · rw [Bool.or_eq_true]
          right
          simp [← hp', hffp]
        · rw [Bool.or_eq_true]
          left
          refine List.any_eq_true.mpr ⟨f, ?_, hfp⟩
          refine List.mem_filter.mpr ⟨hf, ?_⟩
          simp [hffp]
      | none =>
        refine ih _ p ?_
        simp only [fetch_image, hn]
        exact hp

theorem fetch_images_covers (net : String → Option ℕ) (dir : String) :
    ∀ (rows : List MRow) (files : List (String × ℕ)),
      (∀ r ∈ rows, net r.url ≠ none) →
      ∀ r ∈ rows, ((fetch_images net dir rows files).1.any
        fun f => f.1 == filepathOf dir r) = true := by
  intro rows
  induction rows with
  | nil => intro files _ r hr; simp at hr
  | cons a rs ih =>
    intro files hnet r hr
    by_cases h : (files.any fun f => f.1 == filepathOf dir a) = true
    · simp only [fetch_images]
      rw [if_pos h]
      rcases List.mem_cons.mp hr with rfl | hr'
      · exact fetch_images_path_mono net dir rs files _ h
      · exact ih files (fun x hx => hnet x (List.mem_cons_of_mem _ hx)) r hr'
    · simp only [fetch_images]
      rw [if_neg h]
      rcases List.mem_cons.mp hr with rfl | hr'
      · cases hn : net r.url with
        | none => exact absurd hn (hnet r (List.mem_cons_self _ _))
        | some content =>
          refine fetch_images_path_mono net dir rs _ _ ?_
          simp only [fetch_image, hn]
          rw [List.any_append, Bool.or_eq_true]
          right
          simp
      · exact ih _ (fun x hx => hnet x (List.mem_cons_of_mem _ hx)) r hr'

/-- Claim C6, counterexample to the claim as stated: when a row's download
fails (non-200), no file is written, so a second run of the asset fetcher
against the same table and directory performs a network call again — the
second run's GET count is 1, not 0. -/
theorem c6_counterexample :
    (fetch_images netNoneC6 "img" [mrowC6]
        (fetch_images netNoneC6 "img" [mrowC6] []).1).2 = 1 ∧
      (fetch_images netNoneC6 "img" [mrowC6]
        (fetch_images netNoneC6 "img" [mrowC6] []).1).2 ≠ 0 := by
  decide

/-- Claim C6 (amended): a row whose target file `{id}.jpg` already exists
is skipped with no network call — a run over a table whose every target
exists performs zero GETs and leaves the file set unchanged; consequently,
when every download of the first run succeeds, the second run performs zero
network calls and leaves the file set unchanged (after a failed download,
however, the second run retries that row). -/
theorem c6_idempotent_fetch :
    (∀ (net : String → Option ℕ) (dir : String) (rows : List MRow)
        (files : List (String × ℕ)),
        (∀ r ∈ rows, (files.any fun f => f.1 == filepathOf dir r) = true) →
        fetch_images net dir rows files = (files, 0))
  ∧ (∀ (net : String → Option ℕ) (dir : String) (rows : List MRow)
        (files : List (String × ℕ)),
        (∀ r ∈ rows, net r.url ≠ none) →
        fetch_images net dir rows (fetch_images net dir rows files).1
          = ((fetch_images net dir rows files).1, 0)) := by
  have hskip : ∀ (net : String → Option ℕ) (dir : String) (rows : List MRow)
      (files : List (String × ℕ)),
      (∀ r ∈ rows, (files.any fun f => f.1 == filepathOf dir r) = true) →
      fetch_images net dir rows files = (files, 0) := by
    intro net dir rows
    induction rows with
    | nil => intro files _; rfl
    | cons a rs ih =>
      intro files hall
      simp only [fetch_images]
      rw [if_pos (hall a (List.mem_cons_self _ _))]
      exact ih files fun r hr => hall r (List.mem_cons_of_mem _ hr)
  refine ⟨hskip, ?_⟩
  intro net dir rows files hnet
  exact hskip net dir rows _ fun r hr => fetch_images_covers net dir rows files hnet r hr

/-- Claim C6, witness: with a network on which every download succeeds, a
second run over the same one-row table performs zero network calls and
leaves the file set unchanged. -/
theorem c6_idempotent_fetch_witness :
    fetch_images netSomeC6 "img" [mrowC6] (fetch_images netSomeC6 "img" [mrowC6] []).1
      = ((fetch_images netSomeC6 "img" [mrowC6] []).1, 0) :=
  c6_idempotent_fetch.2 netSomeC6 "img" [mrowC6] []
    (fun r _ => by simp [netSomeC6])
